import Mathlib

set_option maxHeartbeats 1000000

open Classical

/-! Shallow embedding of the desietc prototype exposure-time calculator
(`py/desietc/calib.py` and `py/desietc/calculator.py`), together with
theorems about the embedded operations. -/

/-- Arithmetic mean of a list of values, modelling `np.mean`. -/
def listMean {α : Type} [DivisionRing α] (l : List α) : α := l.sum / (l.length : α)

/-- Models the `SampleHold` class of `py/desietc/calib.py`.  The Python object
only gains its `hold` attribute when the sample threshold is first reached;
`hold = none` models the attribute not existing yet. -/
structure SampleHold (α : Type) where
  samples : List α
  num_initial : ℕ
  hold : Option α

/-- Models `SampleHold.__init__(num_initial)`: empty buffer, no `hold` attribute. -/
def SampleHold.init (α : Type) (n : ℕ) : SampleHold α := ⟨[], n, none⟩

/-- Models `SampleHold.reset`: clears the buffer.  The source does not delete the
`hold` attribute, so it is kept unchanged here. -/
def SampleHold.reset {α : Type} (s : SampleHold α) : SampleHold α :=
  { s with samples := [] }

/-- Models `SampleHold.add`: the first component is the returned value, where `none`
models an `AttributeError` raised by reading `self.hold` before it has ever
been assigned; the second component is the updated object state. -/
def SampleHold.add {α : Type} [DivisionRing α] (s : SampleHold α) (v : α) :
    Option α × SampleHold α :=
  if s.samples.length < s.num_initial then
    let samples := s.samples ++ [v]
    if samples.length = s.num_initial then
      (some v, { s with samples := samples, hold := some (listMean samples) })
    else
      (some v, { s with samples := samples })
  else
    (s.hold, s)

/-- The list of values returned by a sequence of `add` calls. -/
def addOutputs {α : Type} [DivisionRing α] (s : SampleHold α) : List α → List (Option α)
  | [] => []
  | x :: xs => (s.add x).1 :: addOutputs (s.add x).2 xs

/-- The state after a sequence of `add` calls. -/
def runAdds {α : Type} [DivisionRing α] (s : SampleHold α) : List α → SampleHold α
  | [] => s
  | x :: xs => runAdds (s.add x).2 xs

/-- An operation performed on a `SampleHold`: an `add` call or a `reset`. -/
inductive SHOp (α : Type) where
  | add (v : α)
  | reset

/-- Run a sequence of `add`/`reset` operations, collecting the value returned
by every `add` call. -/
def runOps {α : Type} [DivisionRing α] (s : SampleHold α) :
    List (SHOp α) → List (Option α) × SampleHold α
  | [] => ([], s)
  | SHOp.add v :: ops =>
      let r := s.add v
      let rest := runOps r.2 ops
      (r.1 :: rest.1, rest.2)
  | SHOp.reset :: ops => runOps s.reset ops

/-- Reference description of the outputs of `add` calls starting from a
filling buffer `ys`: identity passthrough until the threshold is reached,
then the held mean. -/
def refOutputs {α : Type} [DivisionRing α] (N : ℕ) (ys xs : List α) : List (Option α) :=
  (xs.take (N - ys.length)).map some ++
    (xs.drop (N - ys.length)).map (fun _ => some (listMean (ys ++ xs.take (N - ys.length))))

/-- Models the `BackgroundCalib` class of `py/desietc/calib.py`. -/
structure BackgroundCalib where
  rSC : ℚ
  Bread : ℚ
  sky_sh : SampleHold ℚ

/-- Models `BackgroundCalib.__init__` with its default arguments. -/
def BackgroundCalib.init : BackgroundCalib := ⟨3 / 2, 40000, SampleHold.init ℚ 1⟩

/-- Models `BackgroundCalib.rate(sky, dsky)`.  Returns `none` when the Python call
would raise: an `AttributeError` from the sample-hold, or a
`ZeroDivisionError` when the held baseline `sky0` is exactly zero.  Any other
baseline, including a negative one, is divided by silently, exactly as in the
source. -/
def BackgroundCalib.rate (bc : BackgroundCalib) (sky dsky : ℚ) :
    Option ((ℚ × ℚ) × BackgroundCalib) :=
  let r := bc.sky_sh.add sky
  match r.1 with
  | none => none
  | some sky0 =>
      if sky0 = 0 then none
      else
        let y := 1 + bc.rSC * (sky - sky0) / sky0
        let dy := bc.rSC / sky0 * dsky
        some ((y, dy), { bc with sky_sh := r.2 })

/-- Models the `SignalCalib` class of `py/desietc/calib.py`. -/
structure SignalCalib where
  a : ℝ
  b : ℝ
  c : ℝ
  rGFA : ℝ
  airmass_exponent : ℝ
  dust_coef : ℝ
  flux_sh : SampleHold ℝ

/-- Models `SignalCalib.__init__` with its default arguments. -/
noncomputable def SignalCalib.init : SignalCalib :=
  ⟨2.04760, -1.18590, 0.21231, 1, -1.25, 3.303, SampleHold.init ℝ 5⟩

/-- Models `SignalCalib.rate(fwhm, dfwhm, flux, dflux)`.  As for
`BackgroundCalib.rate`, `none` models a raised exception; a negative baseline
`flux0` is divided by silently. -/
noncomputable def SignalCalib.rate (sc : SignalCalib) (fwhm dfwhm flux dflux : ℝ) :
    Option ((ℝ × ℝ) × SignalCalib) :=
  let f_seeing := sc.a + sc.b * fwhm + sc.c * fwhm ^ 2
  let r := sc.flux_sh.add flux
  match r.1 with
  | none => none
  | some flux0 =>
      if flux0 = 0 then none
      else
        let f_flux := 1 + sc.rGFA * (flux - flux0) / flux0
        let y := f_seeing * f_flux
        let dy_dfwhm := (sc.b + 2 * sc.c * fwhm) * f_flux
        let dy_dflux := sc.rGFA / flux0 * f_seeing
        let dy := Real.sqrt ((dy_dfwhm * dfwhm) ^ 2 + (dy_dflux * dflux) ^ 2)
        some ((y, dy), { sc with flux_sh := r.2 })

/-- Models `np.diff(t)`: the step between consecutive grid times. -/
noncomputable def tstep (t : ℕ → ℝ) (j : ℕ) : ℝ := t (j + 1) - t j

/-- One trapezoid-rule term `0.5 * tstep * (S[j] + S[j+1])` from `_eval_snr`. -/
noncomputable def trap (t S : ℕ → ℝ) (j : ℕ) : ℝ := 0.5 * tstep t j * (S j + S (j + 1))

/-- Models `np.cumsum`: running sum of the first `k+1` terms. -/
noncomputable def cumsum (f : ℕ → ℝ) : ℕ → ℝ
  | 0 => f 0
  | k + 1 => cumsum f k + f (k + 1)

/-- Models `Scum` of `_eval_snr`: cumulative trapezoid integral of the rates `S`
over the grid `t`, up to and including the interval ending at `t (k+1)`. -/
noncomputable def Scum (t S : ℕ → ℝ) (k : ℕ) : ℝ := cumsum (trap t S) k

/-- Models `Calculator._eval_snr` of `py/desietc/calculator.py` for one sample row:
SNR 0 at the first grid point, and afterwards `Scum / sqrt (Scum + Bcum)`
wherever `Scum + Bcum > 0`, else 0. -/
noncomputable def evalSnr (t S B : ℕ → ℝ) : ℕ → ℝ
  | 0 => 0
  | i + 1 =>
      if 0 < Scum t S i + Scum t B i then
        Scum t S i / Real.sqrt (Scum t S i + Scum t B i)
      else 0

/-- Modelled from the spec: trapezoidal-rule cumulative integral of `S` from
`t 0` to `t i`, written as a closed-form sum. -/
noncomputable def ScumSpec (t S : ℕ → ℝ) (i : ℕ) : ℝ :=
  ∑ j in Finset.range i, (t (j + 1) - t j) / 2 * (S j + S (j + 1))

/-- Modelled from the spec: the cumulative SNR value at grid index `i`,
`Scum_i / sqrt (Scum_i + Bcum_i)`, zero at the first grid point and zero
whenever `Scum_i + Bcum_i ≤ 0`. -/
noncomputable def evalSnrSpec (t S B : ℕ → ℝ) (i : ℕ) : ℝ :=
  if i = 0 then 0
  else if ScumSpec t S i + ScumSpec t B i ≤ 0 then 0
  else ScumSpec t S i / Real.sqrt (ScumSpec t S i + ScumSpec t B i)

/-- Concrete time grid 0, 1, 2, ... used in counterexamples. -/
noncomputable def tNat : ℕ → ℝ := fun j => (j : ℝ)

/-- Concrete pointwise non-negative calibrated signal rates (2, 0, 0, 0, ...). -/
noncomputable def sRates : ℕ → ℝ := fun j => if j = 0 then 2 else 0

/-- Concrete pointwise non-negative calibrated background rates (0, 0, 6, 6, ...). -/
noncomputable def bRates : ℕ → ℝ := fun j => if j ≤ 1 then 0 else 6

/-- Model of a `Calculator` state restricted to a 4-point prediction grid
(`npred = 4`), the smallest grid accepted by `scipy.interpolate.interp1d`
with `kind='cubic'`; on 4 points that interpolant is the unique cubic
polynomial through the data.  Only the fields read by `_update_snr` and
`will_timeout` are carried. -/
structure Calc4 where
  alpha : ℝ
  beta : ℝ
  snr_goal : ℝ
  dtmax : ℝ
  sig_pred : ℕ → ℝ
  bg_pred : ℕ → ℝ
  dt_goal : ℝ

/-- Models `np.linspace(0, dtmax, 4)`: the fixed elapsed-time grid of a `Calc4`. -/
noncomputable def dt4 (c : Calc4) (j : ℕ) : ℝ := c.dtmax * j / 3

/-- The nominal calibrated SNR curve of `_update_snr`:
`_eval_snr(dt_pred, alpha * sig_pred, beta * bg_pred)`. -/
noncomputable def nominalSnr4 (c : Calc4) (i : ℕ) : ℝ :=
  evalSnr (dt4 c) (fun j => c.alpha * c.sig_pred j) (fun j => c.beta * c.bg_pred j) i

/-- The `assert np.all(np.diff(snr) >= 0)` condition of `_update_snr` on the
4-point grid. -/
def snrMono4 (c : Calc4) : Prop :=
  nominalSnr4 c 0 ≤ nominalSnr4 c 1 ∧ nominalSnr4 c 1 ≤ nominalSnr4 c 2 ∧
    nominalSnr4 c 2 ≤ nominalSnr4 c 3

/-- The unique cubic polynomial through `(x i, y i)` for `i = 0, 1, 2, 3`,
in Lagrange form; this is what `scipy.interpolate.interp1d(x, y,
kind='cubic')` evaluates on a 4-point data set. -/
noncomputable def lagrange4 (x y : ℕ → ℝ) (g : ℝ) : ℝ :=
  y 0 * ((g - x 1) * (g - x 2) * (g - x 3)) / ((x 0 - x 1) * (x 0 - x 2) * (x 0 - x 3)) +
  y 1 * ((g - x 0) * (g - x 2) * (g - x 3)) / ((x 1 - x 0) * (x 1 - x 2) * (x 1 - x 3)) +
  y 2 * ((g - x 0) * (g - x 1) * (g - x 3)) / ((x 2 - x 0) * (x 2 - x 1) * (x 2 - x 3)) +
  y 3 * ((g - x 0) * (g - x 1) * (g - x 2)) / ((x 3 - x 0) * (x 3 - x 1) * (x 3 - x 2))

/-- Models `scipy.interpolate.interp1d(x, y, kind='cubic', bounds_error=False,
fill_value=fill)` on a 4-point data set: out-of-range queries on either side
return `fill`, in-range queries evaluate the interpolating cubic. -/
noncomputable def interp1d4 (x y : ℕ → ℝ) (fill g : ℝ) : ℝ :=
  if g < x 0 then fill
  else if x 3 < g then fill
  else lagrange4 x y g

/-- Models `Calculator._update_snr` on the 4-point grid: recompute the nominal SNR
curve and set `dt_goal` to the interpolated goal-crossing time, with
`fill_value = dt_pred[-1]`. -/
noncomputable def updateSnr4 (c : Calc4) : Calc4 :=
  { c with dt_goal := interp1d4 (nominalSnr4 c) (dt4 c) (dt4 c 3) c.snr_goal }

/-- Models `Calculator.will_timeout`: `dt_goal >= dt_pred[-1]`. -/
def willTimeout4 (c : Calc4) : Prop := dt4 c 3 ≤ c.dt_goal

/-- Concrete `Calc4` state whose nominal SNR curve is strictly increasing
(0, 1, 11/10, 21/10) on the grid (0, 1, 2, 3): each `bg_pred` value is three
times the matching `sig_pred` value, so the cumulative sums obey
`Bcum = 3 * Scum` and every SNR value is `sqrt Scum / 2`. -/
noncomputable def cOver : Calc4 where
  alpha := 1
  beta := 1
  snr_goal := 9 / 5
  dtmax := 3
  sig_pred := fun j => if j = 0 then 7 else if j = 1 then 1 else if j = 2 then 17 / 25 else 623 / 25
  bg_pred := fun j =>
    3 * (if j = 0 then 7 else if j = 1 then 1 else if j = 2 then 17 / 25 else 623 / 25)
  dt_goal := 0

/-- Concrete `Calc4` state with constant unit rates, used to witness the
clamping behaviour for an unreachable SNR goal. -/
noncomputable def cClamp : Calc4 where
  alpha := 1
  beta := 1
  snr_goal := 100
  dtmax := 3
  sig_pred := fun _ => 1
  bg_pred := fun _ => 1
  dt_goal := 0

/-- Model of `np.random.RandomState`: the stream of variates the generator
will emit (fixed once seeded) together with the current position.  Drawing
advances the position; reseeding with the same seed reproduces the same
stream. -/
structure Rng where
  vals : ℕ → ℝ
  pos : ℕ

/-- Models `gen.normal(loc, scale, size=(n, 1))`: one Gaussian variate per sample
row, consuming `n` stream values. -/
noncomputable def Rng.normal (g : Rng) (loc scale : ℝ) (n : ℕ) : (ℕ → ℝ) × Rng :=
  (fun i => loc + scale * g.vals (g.pos + i), ⟨g.vals, g.pos + n⟩)

/-- RBF kernel scaled by a constant kernel, as built in `_update_model`:
`ConstantKernel(drate0^2) * RBF(tcorr)`. -/
noncomputable def rbfK (dr0 tc x y : ℝ) : ℝ :=
  dr0 ^ 2 * Real.exp (-((x - y) ^ 2) / (2 * tc ^ 2))

/-- The regularized Gram matrix `kernel(X) + diag(drate^2)` of the fitted
`GaussianProcessRegressor`, over an observation log of
`(elapsed time, rate, rate error)` triples. -/
noncomputable def gpK (obs : List (ℝ × ℝ × ℝ)) (dr0 tc : ℝ) :
    Matrix (Fin obs.length) (Fin obs.length) ℝ :=
  Matrix.of fun i j =>
    rbfK dr0 tc (obs.get i).1 (obs.get j).1 + if i = j then ((obs.get i).2.2) ^ 2 else 0

/-- The dual weights `(kernel(X) + diag(drate^2))⁻¹ (rate - rate0)` of the
fitted regressor (`rate - rate0` is the centered target fitted in
`_update_model`). -/
noncomputable def gpWeights (obs : List (ℝ × ℝ × ℝ)) (r0 dr0 tc : ℝ) :
    Fin obs.length → ℝ :=
  (gpK obs dr0 tc)⁻¹.mulVec fun j => (obs.get j).2.1 - r0

/-- The posterior mean prediction of `_update_model` at a query time `x`:
`gp.predict` plus the prior mean `rate0` added back.  With an empty
observation log this is the unfitted regressor, whose mean is zero. -/
noncomputable def gpPred (obs : List (ℝ × ℝ × ℝ)) (r0 dr0 tc x : ℝ) : ℝ :=
  r0 + ∑ i : Fin obs.length, rbfK dr0 tc x (obs.get i).1 * gpWeights obs r0 dr0 tc i

/-- The posterior standard deviation returned by `gp.predict(...,
return_std=True)`: `sqrt (k(x,x) - k_*ᵀ K⁻¹ k_*)`, with negative variances
clipped to zero as in scikit-learn. -/
noncomputable def gpStd (obs : List (ℝ × ℝ × ℝ)) (dr0 tc x : ℝ) : ℝ :=
  Real.sqrt (max 0 (rbfK dr0 tc x x -
    ∑ i : Fin obs.length, ∑ j : Fin obs.length,
      rbfK dr0 tc x (obs.get i).1 * (gpK obs dr0 tc)⁻¹ i j * rbfK dr0 tc x (obs.get j).1))

/-- Model of a `Calculator` object from `py/desietc/calculator.py`.  The
three parallel Python lists per rate channel (`dtsig`, `sig`, `dsig` and
`dtbg`, `bg`, `dbg`) are bundled as one list of
`(elapsed time, rate, error)` triples, appended in lockstep exactly as the
source appends to all three.  The interpolated `dt_goal` is modelled
separately on the 4-point grid (`Calc4`). -/
structure Calc where
  alpha : ℝ
  dalpha : ℝ
  beta : ℝ
  dbeta : ℝ
  sig0 : ℝ
  dsig0 : ℝ
  tcorr_sig : ℝ
  bg0 : ℝ
  dbg0 : ℝ
  tcorr_bg : ℝ
  t0 : ℝ
  snr_goal : ℝ
  dtmax : ℝ
  npred : ℕ
  sigObs : List (ℝ × ℝ × ℝ)
  bgObs : List (ℝ × ℝ × ℝ)
  sig_pred : ℕ → ℝ
  dsig_pred : ℕ → ℝ
  bg_pred : ℕ → ℝ
  dbg_pred : ℕ → ℝ
  gen : Rng

/-- Models `np.linspace(0, dtmax, npred)`. -/
noncomputable def linspace (dtmax : ℝ) (npred : ℕ) (j : ℕ) : ℝ :=
  dtmax * j / ((npred - 1 : ℕ) : ℝ)

/-- The fixed elapsed-time prediction grid `self.dt_pred`. -/
noncomputable def Calc.dtPred (c : Calc) (j : ℕ) : ℝ := linspace c.dtmax c.npred j

/-- The conjunction of all constructor `assert` statements of
`Calculator.__init__`. -/
def Calc.initOk (alpha dalpha beta dbeta sig0 dsig0 tcorr_sig bg0 dbg0 tcorr_bg
    snr_goal : ℝ) : Prop :=
  0 < snr_goal ∧ 0 < alpha ∧ 0 ≤ dalpha ∧ 0 < beta ∧ 0 ≤ dbeta ∧
    0 < sig0 ∧ 0 < dsig0 ∧ 0 < bg0 ∧ 0 < dbg0 ∧ 0 < tcorr_sig ∧ 0 < tcorr_bg

/-- The `Calculator` state built by `__init__` once its asserts have passed:
empty observation logs, and both prediction channels evaluated from
`_update_model` with empty data. -/
noncomputable def Calc.mk0 (alpha dalpha beta dbeta sig0 dsig0 tcorr_sig bg0 dbg0 tcorr_bg
    t0 snr_goal dtmax : ℝ) (npred : ℕ) (gen : Rng) : Calc where
  alpha := alpha
  dalpha := dalpha
  beta := beta
  dbeta := dbeta
  sig0 := sig0
  dsig0 := dsig0
  tcorr_sig := tcorr_sig
  bg0 := bg0
  dbg0 := dbg0
  tcorr_bg := tcorr_bg
  t0 := t0
  snr_goal := snr_goal
  dtmax := dtmax
  npred := npred
  sigObs := []
  bgObs := []
  sig_pred := fun j => gpPred [] sig0 dsig0 tcorr_sig (linspace dtmax npred j)
  dsig_pred := fun j => gpStd [] dsig0 tcorr_sig (linspace dtmax npred j)
  bg_pred := fun j => gpPred [] bg0 dbg0 tcorr_bg (linspace dtmax npred j)
  dbg_pred := fun j => gpStd [] dbg0 tcorr_bg (linspace dtmax npred j)
  gen := gen

/-- Models `Calculator.__init__`: `none` models a failed constructor assert. -/
noncomputable def Calc.init (alpha dalpha beta dbeta sig0 dsig0 tcorr_sig bg0 dbg0 tcorr_bg
    t0 snr_goal dtmax : ℝ) (npred : ℕ) (gen : Rng) : Option Calc :=
  if Calc.initOk alpha dalpha beta dbeta sig0 dsig0 tcorr_sig bg0 dbg0 tcorr_bg snr_goal then
    some (Calc.mk0 alpha dalpha beta dbeta sig0 dsig0 tcorr_sig bg0 dbg0 tcorr_bg
      t0 snr_goal dtmax npred gen)
  else none

/-- The nominal calibrated SNR curve recomputed by `_update_snr`. -/
noncomputable def Calc.nominalSnr (c : Calc) (i : ℕ) : ℝ :=
  evalSnr c.dtPred (fun j => c.alpha * c.sig_pred j) (fun j => c.beta * c.bg_pred j) i

/-- The `assert np.all(np.diff(snr) >= 0)` condition of `_update_snr`. -/
def Calc.snrMonoOK (c : Calc) : Prop :=
  ∀ i, i + 1 < c.npred → c.nominalSnr i ≤ c.nominalSnr (i + 1)

/-- Models `Calculator.update_signal(tsig, sig, dsig)`: the object state after the
call returns or propagates an exception.  The argument asserts run before
any mutation, so on invalid arguments the state is untouched; on valid
arguments the observation triple is appended and the signal model refit over
the complete log. -/
noncomputable def Calc.updateSignalState (c : Calc) (tsig sig dsig : ℝ) : Calc :=
  if c.t0 ≤ tsig ∧ 0 < sig ∧ 0 < dsig then
    let obs := c.sigObs ++ [(tsig - c.t0, sig, dsig)]
    { c with
      sigObs := obs
      sig_pred := fun j => gpPred obs c.sig0 c.dsig0 c.tcorr_sig (c.dtPred j)
      dsig_pred := fun j => gpStd obs c.dsig0 c.tcorr_sig (c.dtPred j) }
  else c

/-- When `update_signal` raises: either an argument assert fails (before any
mutation), or the monotonic-SNR assert of the subsequent `_update_snr` fails
(after the log was already appended). -/
noncomputable def Calc.updateSignalRaises (c : Calc) (tsig sig dsig : ℝ) : Prop :=
  ¬(c.t0 ≤ tsig ∧ 0 < sig ∧ 0 < dsig) ∨
    ¬(c.updateSignalState tsig sig dsig).snrMonoOK

/-- Models `Calculator.update_background(tbg, bg, dbg)`: state after the call, as
for `updateSignalState`. -/
noncomputable def Calc.updateBackgroundState (c : Calc) (tbg bg dbg : ℝ) : Calc :=
  if c.t0 ≤ tbg ∧ 0 < bg ∧ 0 < dbg then
    let obs := c.bgObs ++ [(tbg - c.t0, bg, dbg)]
    { c with
      bgObs := obs
      bg_pred := fun j => gpPred obs c.bg0 c.dbg0 c.tcorr_bg (c.dtPred j)
      dbg_pred := fun j => gpStd obs c.dbg0 c.tcorr_bg (c.dtPred j) }
  else c

/-- When `update_background` raises, as for `updateSignalRaises`. -/
noncomputable def Calc.updateBackgroundRaises (c : Calc) (tbg bg dbg : ℝ) : Prop :=
  ¬(c.t0 ≤ tbg ∧ 0 < bg ∧ 0 < dbg) ∨
    ¬(c.updateBackgroundState tbg bg dbg).snrMonoOK

/-- Type of the deterministic sampler modelling `sample_y` of the fitted
scikit-learn regressor.  `sample_y` is called with its default
`random_state=0`, so its output is a fixed function of the fitted model
(observation log, prior mean, prior error, correlation time), the query
times, their count, the number of samples, and the sample/time indices. -/
def SampleYT : Type :=
  List (ℝ × ℝ × ℝ) → ℝ → ℝ → ℝ → (ℕ → ℝ) → ℕ → ℕ → ℕ → ℕ → ℝ

/-- Models `Calculator.get_samples(dt, nsamples)`: returns `none` and an untouched
state if an assert fails, otherwise the calibrated signal samples, background
samples and per-sample SNR curves (indexed sample-first as after the `.T`),
together with the state whose only change is the advanced generator.  The
calibration factor is drawn from `gen.normal` per sample when its error is
positive, and applied deterministically otherwise. -/
noncomputable def Calc.getSamples (sy : SampleYT) (c : Calc) (dt : ℕ → ℝ) (m ns : ℕ) :
    Option ((ℕ → ℕ → ℝ) × (ℕ → ℕ → ℝ) × (ℕ → ℕ → ℝ)) × Calc :=
  if (∀ j, j < m → 0 ≤ dt j ∧ dt j ≤ c.dtPred (c.npred - 1)) ∧ 0 < ns then
    let S0 : ℕ → ℕ → ℝ := fun k j => c.sig0 + sy c.sigObs c.sig0 c.dsig0 c.tcorr_sig dt m ns k j
    let B0 : ℕ → ℕ → ℝ := fun k j => c.bg0 + sy c.bgObs c.bg0 c.dbg0 c.tcorr_bg dt m ns k j
    let p1 := if 0 < c.dalpha then c.gen.normal c.alpha c.dalpha ns else (fun _ => c.alpha, c.gen)
    let S1 : ℕ → ℕ → ℝ := fun k j => S0 k j * p1.1 k
    let p2 := if 0 < c.dbeta then p1.2.normal c.beta c.dbeta ns else (fun _ => c.beta, p1.2)
    let B1 : ℕ → ℕ → ℝ := fun k j => B0 k j * p2.1 k
    (some (S1, B1, fun k => evalSnr dt (S1 k) (B1 k)), { c with gen := p2.2 })
  else (none, c)

/-- Models `np.percentile(xs, q)` with the default linear interpolation between
order statistics. -/
noncomputable def npPercentile (xs : List ℝ) (q : ℝ) : ℝ :=
  let s := xs.insertionSort (· ≤ ·)
  let n := s.length
  let pos := q / 100 * ((n - 1 : ℕ) : ℝ)
  let lo := (Int.floor pos).toNat
  let a := s.getD lo 0
  let b := s.getD (min (lo + 1) (n - 1)) 0
  a + (pos - Int.floor pos) * (b - a)

/-- Models `Calculator.get_snr_now(tnow, CL, nsamples)`: `none` models a failed
assert.  Builds the truncated grid ending exactly at `tnow - t0` (the index
`last` is the first grid point at or after `tnow`, found as `np.argmax`
finds it), draws the samples, and returns the central-`CL` percentile pair
of the final-time SNR samples.  The returned state is the state after the
call. -/
noncomputable def Calc.getSnrNow (sy : SampleYT) (c : Calc) (tnow CL : ℝ) (ns : ℕ) :
    Option (ℝ × ℝ) × Calc :=
  if c.t0 ≤ tnow ∧ tnow ≤ c.t0 + c.dtPred (c.npred - 1) ∧ 0 < CL ∧ CL < 1 ∧ 0 < ns then
    let last := (List.range c.npred).findIdx fun j => decide (tnow ≤ c.t0 + c.dtPred j)
    let dtq : ℕ → ℝ := fun j => if j = last then tnow - c.t0 else c.dtPred j
    let r := c.getSamples sy dtq (last + 1) ns
    let res :=
      match r.1 with
      | none => none
      | some (_, _, snr) =>
          let finalSnr := (List.range ns).map fun k => snr k last
          let lo := 50 * (1 - CL)
          some (npPercentile finalSnr lo, npPercentile finalSnr (100 - lo))
    (res, r.2)
  else (none, c)

/-- A concrete random-generator state. -/
noncomputable def rngW : Rng := ⟨fun _ => 0, 0⟩

/-- A concrete `Calculator` state used to instantiate universally quantified
theorems. -/
noncomputable def ccW : Calc where
  alpha := 1
  dalpha := 0
  beta := 1
  dbeta := 0
  sig0 := 1
  dsig0 := 1
  tcorr_sig := 1
  bg0 := 1
  dbg0 := 1
  tcorr_bg := 1
  t0 := 0
  snr_goal := 1
  dtmax := 3
  npred := 4
  sigObs := []
  bgObs := []
  sig_pred := fun _ => 1
  dsig_pred := fun _ => 1
  bg_pred := fun _ => 1
  dbg_pred := fun _ => 1
  gen := rngW

/-- Invariant of a `SampleHold` with a positive threshold: whenever the
buffer has reached the threshold, the `hold` attribute has been assigned. -/
def SHInv {α : Type} (s : SampleHold α) : Prop :=
  1 ≤ s.num_initial ∧ (s.num_initial ≤ s.samples.length → s.hold.isSome)

/-! ## Theorems -/

theorem addOutputs_held {α : Type} [DivisionRing α] (s : SampleHold α)
    (h : ¬s.samples.length < s.num_initial) (xs : List α) :
    addOutputs s xs = xs.map fun _ => s.hold := by
  induction xs with
  | nil => simp [addOutputs]
  | cons x xs ih =>
      simp only [addOutputs, SampleHold.add, if_neg h, List.map_cons]
      exact congrArg _ ih

theorem runAdds_held {α : Type} [DivisionRing α] (s : SampleHold α)
    (h : ¬s.samples.length < s.num_initial) (xs : List α) :
    runAdds s xs = s := by
  induction xs with
  | nil => rfl
  | cons x xs ih => simpa only [runAdds, SampleHold.add, if_neg h] using ih

theorem addOutputs_filling {α : Type} [DivisionRing α] :
    ∀ (xs ys : List α) (N : ℕ) (h₀ : Option α), ys.length < N →
      addOutputs ⟨ys, N, h₀⟩ xs = refOutputs N ys xs := by
  intro xs
  induction xs with
  | nil => intro ys N h₀ h; simp [addOutputs, refOutputs]
  | cons x xs ih =>
      intro ys N h₀ h
      by_cases heq : ys.length + 1 = N
      · have hlen : (ys ++ [x]).length = N := by simpa using heq
        have hadd : SampleHold.add ⟨ys, N, h₀⟩ x =
            (some x, ⟨ys ++ [x], N, some (listMean (ys ++ [x]))⟩) := by
          simp [SampleHold.add, h, hlen]
        have hheld : ¬(ys ++ [x]).length < N := by omega
        rw [addOutputs, hadd]
        simp only []
        rw [addOutputs_held ⟨ys ++ [x], N, some (listMean (ys ++ [x]))⟩ hheld xs]
        have hk : N - ys.length = 1 := by omega
        simp [refOutputs, hk]
      · have hlt : (ys ++ [x]).length < N := by simp; omega
        have hadd : SampleHold.add ⟨ys, N, h₀⟩ x = (some x, ⟨ys ++ [x], N, h₀⟩) := by
          simp [SampleHold.add, h, heq]
        rw [addOutputs, hadd]
        simp only []
        rw [ih (ys ++ [x]) N h₀ hlt]
        have hk : N - ys.length = (N - (ys.length + 1)) + 1 := by omega
        simp only [refOutputs, List.length_append, List.length_cons, List.length_nil]
        rw [hk]
        simp [List.take_succ_cons, List.drop_succ_cons, List.append_assoc]

theorem runAdds_filling_hold {α : Type} [DivisionRing α] :
    ∀ (xs ys : List α) (N : ℕ) (h₀ : Option α), ys.length < N → N ≤ ys.length + xs.length →
      (runAdds ⟨ys, N, h₀⟩ xs).hold = some (listMean (ys ++ xs.take (N - ys.length))) := by
  intro xs
  induction xs with
  | nil => intro ys N h₀ h hlen; simp at hlen; omega
  | cons x xs ih =>
      intro ys N h₀ h hlen
      simp only [List.length_cons] at hlen
      by_cases heq : ys.length + 1 = N
      · have hl : (ys ++ [x]).length = N := by simpa using heq
        have hadd : SampleHold.add ⟨ys, N, h₀⟩ x =
            (some x, ⟨ys ++ [x], N, some (listMean (ys ++ [x]))⟩) := by
          simp [SampleHold.add, h, hl]
        have hheld : ¬(ys ++ [x]).length < N := by omega
        rw [runAdds, hadd]
        simp only []
        rw [runAdds_held ⟨ys ++ [x], N, some (listMean (ys ++ [x]))⟩ hheld xs]
        have hk : N - ys.length = 1 := by omega
        simp [hk]
      · have hlt : (ys ++ [x]).length < N := by simp; omega
        have hadd : SampleHold.add ⟨ys, N, h₀⟩ x = (some x, ⟨ys ++ [x], N, h₀⟩) := by
          simp [SampleHold.add, h, heq]
        rw [runAdds, hadd]
        simp only []
        rw [ih (ys ++ [x]) N h₀ hlt (by simp only [List.length_append,
          List.length_cons, List.length_nil]; omega)]
        have hk : N - ys.length = (N - (ys.length + 1)) + 1 := by omega
        rw [hk]
        simp [List.take_succ_cons, List.append_assoc]

/-- C3: for threshold `N ≥ 1`, each of the first `N` add calls returns its
argument unchanged; the call reaching `N` stored samples caches the mean of
the first `N` values as the held baseline; every later call ignores its
argument and returns that cached mean; and after `reset()` the filter
behaves as from a fresh start. -/
theorem sampleHold_passthrough_hold_reset (N : ℕ) (xs : List ℚ) (hN : 1 ≤ N) :
    (∀ i, i < N → i < xs.length →
      (addOutputs (SampleHold.init ℚ N) xs).getD i none = some (xs.getD i 0)) ∧
    (N ≤ xs.length →
      (runAdds (SampleHold.init ℚ N) xs).hold = some (listMean (xs.take N))) ∧
    (∀ i, N ≤ i → i < xs.length →
      (addOutputs (SampleHold.init ℚ N) xs).getD i none = some (listMean (xs.take N))) ∧
    (∀ s : SampleHold ℚ, s.num_initial = N →
      addOutputs s.reset xs = addOutputs (SampleHold.init ℚ N) xs) := by
  have hfill : addOutputs (SampleHold.init ℚ N) xs = refOutputs N [] xs :=
    addOutputs_filling xs [] N none (by simpa using hN)
  have href : addOutputs (SampleHold.init ℚ N) xs =
      (xs.take N).map some ++ (xs.drop N).map fun _ => some (listMean (xs.take N)) := by
    rw [hfill]; simp [refOutputs]
  refine ⟨?_, ?_, ?_, ?_⟩
  · intro i hiN hilen
    rw [href, List.getD_eq_getElem?_getD, List.getElem?_append]
    have hlt : i < ((xs.take N).map some).length := by
      simp only [List.length_map, List.length_take]; omega
    rw [if_pos hlt, List.getElem?_map, List.getElem?_take, if_pos hiN,
      List.getElem?_eq_getElem hilen]
    simp [List.getD_eq_getElem?_getD, List.getElem?_eq_getElem hilen]
  · intro hNlen
    have h := runAdds_filling_hold xs [] N none (by simpa using hN)
      (by simpa using hNlen)
    simpa using h
  · intro i hNi hilen
    rw [href, List.getD_eq_getElem?_getD, List.getElem?_append]
    have hge : ¬i < ((xs.take N).map some).length := by
      simp only [List.length_map, List.length_take]; omega
    rw [if_neg hge]
    have hm : ((xs.take N).map some).length = N := by
      simp only [List.length_map, List.length_take]; omega
    rw [hm, List.getElem?_map, List.getElem?_drop]
    have hidx : N + (i - N) = i := by omega
    rw [hidx, List.getElem?_eq_getElem hilen]
    simp
  · intro s hs
    obtain ⟨ss, n, h₀⟩ := s
    simp only at hs
    subst hs
    show addOutputs ⟨[], n, h₀⟩ xs = addOutputs (SampleHold.init ℚ n) xs
    rw [addOutputs_filling xs [] n h₀ (by simpa using hN)]
    exact (addOutputs_filling xs [] n none (by simpa using hN)).symm

/-- Witness for C3 at threshold 2 and inputs 1, 5, 9: passthrough twice, the
mean 3 is held, and a reset replays from a fresh start. -/
theorem sampleHold_passthrough_hold_reset_witness :
    (addOutputs (SampleHold.init ℚ 2) [1, 5, 9]).getD 0 none = some 1 ∧
    (runAdds (SampleHold.init ℚ 2) [1, 5, 9]).hold = some 3 ∧
    (addOutputs (SampleHold.init ℚ 2) [1, 5, 9]).getD 2 none = some 3 ∧
    addOutputs (SampleHold.init ℚ 2).reset [1, 5, 9] =
      addOutputs (SampleHold.init ℚ 2) [1, 5, 9] := by
  obtain ⟨h1, h2, h3, h4⟩ := sampleHold_passthrough_hold_reset 2 [1, 5, 9] (by decide)
  refine ⟨?_, ?_, ?_, h4 _ rfl⟩
  · rw [h1 0 (by decide) (by decide)]; decide
  · rw [h2 (by decide)]; norm_num [listMean]
  · rw [h3 2 (by decide) (by decide)]; norm_num [listMean]

theorem add_preserves_SHInv {α : Type} [DivisionRing α] (s : SampleHold α) (v : α)
    (h : SHInv s) : SHInv (s.add v).2 ∧ ((s.add v).1).isSome := by
  obtain ⟨h1, h2⟩ := h
  by_cases hc : s.samples.length < s.num_initial
  · by_cases he : s.samples.length + 1 = s.num_initial
    · constructor
      · refine ⟨?_, fun _ => ?_⟩ <;> simp [SampleHold.add, hc, he, h1]
      · simp [SampleHold.add, hc, he]
    · constructor
      · refine ⟨by simp [SampleHold.add, hc, he, h1], fun hle => ?_⟩
        exfalso
        simp [SampleHold.add, hc, he] at hle
        omega
      · simp [SampleHold.add, hc, he]
  · exact ⟨by simpa [SampleHold.add, hc] using ⟨h1, h2⟩,
      by simpa [SampleHold.add, hc] using h2 (by omega)⟩

theorem reset_preserves_SHInv {α : Type} (s : SampleHold α) (h : SHInv s) :
    SHInv s.reset := by
  obtain ⟨h1, _⟩ := h
  exact ⟨h1, by simp [SampleHold.reset]; omega⟩

theorem runOps_all_defined {α : Type} [DivisionRing α] :
    ∀ (ops : List (SHOp α)) (s : SampleHold α), SHInv s →
      ((runOps s ops).1.all Option.isSome) = true ∧ SHInv (runOps s ops).2 := by
  intro ops
  induction ops with
  | nil => intro s h; exact ⟨rfl, h⟩
  | cons op ops ih =>
      intro s h
      cases op with
      | add v =>
          obtain ⟨hinv, hsome⟩ := add_preserves_SHInv s v h
          obtain ⟨hall, hinv2⟩ := ih (s.add v).2 hinv
          exact ⟨by simp [runOps, hsome, hall], by simpa [runOps] using hinv2⟩
      | reset =>
          obtain ⟨hall, hinv2⟩ := ih s.reset (reset_preserves_SHInv s h)
          exact ⟨by simpa [runOps] using hall, by simpa [runOps] using hinv2⟩

/-- C10: with threshold `num_initial ≥ 1`, every `add` in any sequence of
`add`/`reset` calls from construction returns a defined value (the held
baseline is only read after it has been assigned); with `num_initial = 0`
the very first `add` reads the never-assigned baseline. -/
theorem sampleHold_add_defined_iff_threshold_pos :
    (∀ (N : ℕ) (ops : List (SHOp ℚ)), 1 ≤ N →
      ((runOps (SampleHold.init ℚ N) ops).1.all Option.isSome) = true) ∧
    ((SampleHold.init ℚ 0).add 5).1 = none := by
  refine ⟨fun N ops hN => ?_, by decide⟩
  refine (runOps_all_defined ops _ ⟨hN, fun h => ?_⟩).1
  simp only [SampleHold.init, List.length_nil] at h
  omega

/-- Witness for C10 at threshold 1 and an add-reset-add sequence. -/
theorem sampleHold_add_defined_iff_threshold_pos_witness :
    ((runOps (SampleHold.init ℚ 1) [SHOp.add 2, SHOp.reset, SHOp.add 7]).1.all
      Option.isSome) = true :=
  sampleHold_add_defined_iff_threshold_pos.1 1 [SHOp.add 2, SHOp.reset, SHOp.add 7]
    (by decide)

/-- C6 (code bug): `BackgroundCalib.rate` with the held baseline `sky0 = -1`,
which is non-positive, does not raise: it silently returns the finite pair
`(1, -3/2)` (a negative propagated error), because the source divides by the
baseline without any positivity check. -/
theorem backgroundCalib_rate_silent_on_negative_baseline :
    ((SampleHold.init ℚ 1).add (-1)).1 = some (-1) ∧ (-1 : ℚ) ≤ 0 ∧
    (BackgroundCalib.init.rate (-1) 1).map Prod.fst = some (1, -(3 / 2)) := by
  refine ⟨by decide, by decide, ?_⟩
  norm_num [BackgroundCalib.rate, BackgroundCalib.init, SampleHold.add, SampleHold.init,
    listMean]

theorem cumsum_eq_sum (f : ℕ → ℝ) (k : ℕ) :
    cumsum f k = ∑ j in Finset.range (k + 1), f j := by
  induction k with
  | zero => simp [cumsum]
  | succ k ih => rw [cumsum, ih]; exact (Finset.sum_range_succ f (k + 1)).symm

theorem Scum_eq_ScumSpec (t S : ℕ → ℝ) (k : ℕ) : Scum t S k = ScumSpec t S (k + 1) := by
  rw [Scum, cumsum_eq_sum, ScumSpec]
  refine Finset.sum_congr rfl fun j _ => ?_
  rw [trap, tstep]; ring

/-- C7: `_eval_snr` agrees with the specified closed form at every index:
0 at the first grid point, and `Scum_i / sqrt (Scum_i + Bcum_i)` with
trapezoidal-rule cumulative integrals from `t 0` to `t i` elsewhere, except
that a non-positive cumulative sum yields SNR 0. -/
theorem evalSnr_eq_spec (t S B : ℕ → ℝ) (i : ℕ) :
    evalSnr t S B i = evalSnrSpec t S B i := by
  cases i with
  | zero => simp [evalSnr, evalSnrSpec]
  | succ i =>
      rw [evalSnr, evalSnrSpec, if_neg (Nat.succ_ne_zero i), ← Scum_eq_ScumSpec,
        ← Scum_eq_ScumSpec]
      by_cases h : 0 < Scum t S i + Scum t B i
      · rw [if_pos h, if_neg (not_le.mpr h)]
      · rw [if_neg h, if_pos (not_lt.mp h)]

/-- C1 (counterexample): on the strictly increasing grid 0, 1, 2 with the
pointwise non-negative calibrated rates S = (2, 0, 0) and B = (0, 0, 6), the
nominal cumulative SNR computed by `_eval_snr` strictly decreases from grid
index 1 to index 2, so the `assert np.all(np.diff(snr) >= 0)` of
`_update_snr` fails even though both rate vectors are non-negative. -/
theorem evalSnr_decreasing_on_nonneg_rates :
    0 ≤ sRates 0 ∧ 0 ≤ sRates 1 ∧ 0 ≤ sRates 2 ∧
    0 ≤ bRates 0 ∧ 0 ≤ bRates 1 ∧ 0 ≤ bRates 2 ∧
    tNat 0 < tNat 1 ∧ tNat 1 < tNat 2 ∧
    evalSnr tNat sRates bRates 2 < evalSnr tNat sRates bRates 1 := by
  refine ⟨by norm_num [sRates], by norm_num [sRates], by norm_num [sRates],
    by norm_num [bRates], by norm_num [bRates], by norm_num [bRates],
    by norm_num [tNat], by norm_num [tNat], ?_⟩
  have hS0 : Scum tNat sRates 0 = 1 := by
    norm_num [Scum, cumsum, trap, tstep, sRates, tNat]
  have hS1 : Scum tNat sRates 1 = 1 := by
    norm_num [Scum, cumsum, trap, tstep, sRates, tNat]
  have hB0 : Scum tNat bRates 0 = 0 := by
    norm_num [Scum, cumsum, trap, tstep, bRates, tNat]
  have hB1 : Scum tNat bRates 1 = 3 := by
    norm_num [Scum, cumsum, trap, tstep, bRates, tNat]
  have h4 : Real.sqrt 4 = 2 := by
    rw [show (4 : ℝ) = 2 ^ 2 by norm_num, Real.sqrt_sq (by norm_num : (0 : ℝ) ≤ 2)]
  have e1 : evalSnr tNat sRates bRates 1 = 1 := by
    show (if 0 < Scum tNat sRates 0 + Scum tNat bRates 0 then
      Scum tNat sRates 0 / Real.sqrt (Scum tNat sRates 0 + Scum tNat bRates 0) else 0) = 1
    rw [hS0, hB0]
    norm_num [Real.sqrt_one]
  have e2 : evalSnr tNat sRates bRates 2 = 1 / 2 := by
    show (if 0 < Scum tNat sRates 1 + Scum tNat bRates 1 then
      Scum tNat sRates 1 / Real.sqrt (Scum tNat sRates 1 + Scum tNat bRates 1) else 0) = 1 / 2
    rw [hS1, hB1]
    norm_num [h4]
  rw [e1, e2]
  norm_num

theorem Scum_const (t : ℕ → ℝ) (s : ℝ) (k : ℕ) :
    Scum t (fun _ => s) k = s * (t (k + 1) - t 0) := by
  induction k with
  | zero => show 0.5 * tstep t 0 * (s + s) = _; rw [tstep]; ring
  | succ k ih =>
      show cumsum (trap t fun _ => s) k + trap t (fun _ => s) (k + 1) = _
      rw [show cumsum (trap t fun _ => s) k = Scum t (fun _ => s) k from rfl, ih,
        trap, tstep]
      ring

theorem sqrt_factor_eq (s b T : ℝ) (hsb : 0 < s + b) (hT : 0 < T) :
    s * T / Real.sqrt ((s + b) * T) = s * Real.sqrt T / Real.sqrt (s + b) := by
  rw [Real.sqrt_mul hsb.le, mul_comm (Real.sqrt (s + b)) (Real.sqrt T), ← div_div,
    mul_div_assoc, Real.div_sqrt]

/-- C1 (amended): for a strictly increasing time grid and constant
non-negative rates (in particular the flat prior-only prediction), the
nominal cumulative SNR curve of `_eval_snr` is monotonically non-decreasing
across the grid. -/
theorem evalSnr_monotone_const_rates (t : ℕ → ℝ) (s b : ℝ)
    (ht : ∀ j, t j < t (j + 1)) (hs : 0 ≤ s) (hb : 0 ≤ b) (i : ℕ) :
    evalSnr t (fun _ => s) (fun _ => b) i ≤ evalSnr t (fun _ => s) (fun _ => b) (i + 1) := by
  have hmono : StrictMono t := strictMono_nat_of_lt_succ ht
  have hT : ∀ k : ℕ, 0 < t (k + 1) - t 0 := fun k => sub_pos.mpr (hmono (Nat.succ_pos k))
  have hsum : ∀ k : ℕ, Scum t (fun _ => s) k + Scum t (fun _ => b) k =
      (s + b) * (t (k + 1) - t 0) := by
    intro k; rw [Scum_const, Scum_const]; ring
  by_cases hsb : s + b ≤ 0
  · have hs0 : s = 0 := le_antisymm (by linarith) hs
    have hb0 : b = 0 := le_antisymm (by linarith) hb
    cases i with
    | zero =>
        rw [show evalSnr t (fun _ => s) (fun _ => b) 0 = 0 from rfl, evalSnr]
        rw [hsum 0, hs0, hb0]
        norm_num
    | succ i =>
        rw [evalSnr, evalSnr, hsum, hsum, hs0, hb0]
        norm_num
  · push_neg at hsb
    cases i with
    | zero =>
        rw [show evalSnr t (fun _ => s) (fun _ => b) 0 = 0 from rfl, evalSnr]
        split
        · exact div_nonneg (by rw [Scum_const]; exact mul_nonneg hs (hT 0).le)
            (Real.sqrt_nonneg _)
        · exact le_refl 0
    | succ i =>
        rw [evalSnr, evalSnr, hsum, hsum, Scum_const, Scum_const,
          if_pos (mul_pos hsb (hT i)), if_pos (mul_pos hsb (hT (i + 1)))]
        rw [sqrt_factor_eq s b _ hsb (hT i), sqrt_factor_eq s b _ hsb (hT (i + 1))]
        have hle : Real.sqrt (t (i + 1) - t 0) ≤ Real.sqrt (t (i + 2) - t 0) :=
          Real.sqrt_le_sqrt (by have := (hmono (Nat.lt_succ_self (i + 1))).le; linarith)
        gcongr

/-- Witness for the amended C1 on the grid 0, 1, 2, ... with unit rates. -/
theorem evalSnr_monotone_const_rates_witness :
    evalSnr tNat (fun _ => (1 : ℝ)) (fun _ => 1) 1 ≤
      evalSnr tNat (fun _ => (1 : ℝ)) (fun _ => 1) 2 :=
  evalSnr_monotone_const_rates tNat 1 1
    (fun j => by simp only [tNat]; exact_mod_cast Nat.lt_succ_self j)
    zero_le_one zero_le_one 1

/-- C2 (counterexample): a `Calculator` state on the 4-point grid whose
nominal SNR curve (0, 1, 11/10, 21/10) is strictly increasing (the
`_update_snr` assert passes) and whose goal 9/5 lies strictly inside the
curve's range, yet the cubic interpolant evaluates to `dt_goal = 63/11`,
strictly beyond the last grid elapsed time 3: the goal-crossing time is not
produced by monotone interpolation, is not clamped to the final grid time,
and `will_timeout()` is true while `dt_goal` differs from the last grid
time. -/
theorem interp1d_cubic_overshoot_counterexample :
    nominalSnr4 cOver 0 = 0 ∧ nominalSnr4 cOver 1 = 1 ∧
    nominalSnr4 cOver 2 = 11 / 10 ∧ nominalSnr4 cOver 3 = 21 / 10 ∧
    snrMono4 cOver ∧
    cOver.snr_goal < nominalSnr4 cOver 3 ∧
    (updateSnr4 cOver).dt_goal = 63 / 11 ∧
    dt4 cOver 3 < (updateSnr4 cOver).dt_goal ∧
    willTimeout4 (updateSnr4 cOver) ∧
    (updateSnr4 cOver).dt_goal ≠ dt4 cOver 3 := by
  have hdt : ∀ j : ℕ, dt4 cOver j = (j : ℝ) := by
    intro j; simp only [dt4, cOver]; ring
  have ha : cOver.alpha = 1 := rfl
  have hbt : cOver.beta = 1 := rfl
  have hsp0 : cOver.sig_pred 0 = 7 := rfl
  have hsp1 : cOver.sig_pred 1 = 1 := rfl
  have hsp2 : cOver.sig_pred 2 = 17 / 25 := rfl
  have hsp3 : cOver.sig_pred 3 = 623 / 25 := rfl
  have hbp0 : cOver.bg_pred 0 = 21 := by norm_num [cOver]
  have hbp1 : cOver.bg_pred 1 = 3 := by norm_num [cOver]
  have hbp2 : cOver.bg_pred 2 = 51 / 25 := by norm_num [cOver]
  have hbp3 : cOver.bg_pred 3 = 1869 / 25 := by norm_num [cOver]
  have hS0 : Scum (dt4 cOver) (fun j => cOver.alpha * cOver.sig_pred j) 0 = 4 := by
    norm_num [Scum, cumsum, trap, tstep, hdt, ha, hsp0, hsp1]
  have hS1 : Scum (dt4 cOver) (fun j => cOver.alpha * cOver.sig_pred j) 1 = 121 / 25 := by
    norm_num [Scum, cumsum, trap, tstep, hdt, ha, hsp0, hsp1, hsp2]
  have hS2 : Scum (dt4 cOver) (fun j => cOver.alpha * cOver.sig_pred j) 2 = 441 / 25 := by
    norm_num [Scum, cumsum, trap, tstep, hdt, ha, hsp0, hsp1, hsp2, hsp3]
  have hB0 : Scum (dt4 cOver) (fun j => cOver.beta * cOver.bg_pred j) 0 = 12 := by
    norm_num [Scum, cumsum, trap, tstep, hdt, hbt, hbp0, hbp1]
  have hB1 : Scum (dt4 cOver) (fun j => cOver.beta * cOver.bg_pred j) 1 = 363 / 25 := by
    norm_num [Scum, cumsum, trap, tstep, hdt, hbt, hbp0, hbp1, hbp2]
  have hB2 : Scum (dt4 cOver) (fun j => cOver.beta * cOver.bg_pred j) 2 = 1323 / 25 := by
    norm_num [Scum, cumsum, trap, tstep, hdt, hbt, hbp0, hbp1, hbp2, hbp3]
  have h16 : Real.sqrt 16 = 4 := by
    rw [show (16 : ℝ) = 4 ^ 2 by norm_num, Real.sqrt_sq (by norm_num : (0 : ℝ) ≤ 4)]
  have h484 : Real.sqrt (484 / 25) = 22 / 5 := by
    rw [show (484 / 25 : ℝ) = (22 / 5) ^ 2 by norm_num,
      Real.sqrt_sq (by norm_num : (0 : ℝ) ≤ 22 / 5)]
  have h1764 : Real.sqrt (1764 / 25) = 42 / 5 := by
    rw [show (1764 / 25 : ℝ) = (42 / 5) ^ 2 by norm_num,
      Real.sqrt_sq (by norm_num : (0 : ℝ) ≤ 42 / 5)]
  have e0 : nominalSnr4 cOver 0 = 0 := rfl
  have e1 : nominalSnr4 cOver 1 = 1 := by
    show (if 0 < Scum (dt4 cOver) (fun j => cOver.alpha * cOver.sig_pred j) 0 +
        Scum (dt4 cOver) (fun j => cOver.beta * cOver.bg_pred j) 0 then
      Scum (dt4 cOver) (fun j => cOver.alpha * cOver.sig_pred j) 0 /
        Real.sqrt (Scum (dt4 cOver) (fun j => cOver.alpha * cOver.sig_pred j) 0 +
          Scum (dt4 cOver) (fun j => cOver.beta * cOver.bg_pred j) 0) else 0) = 1
    rw [hS0, hB0]
    norm_num [h16]
  have e2 : nominalSnr4 cOver 2 = 11 / 10 := by
    show (if 0 < Scum (dt4 cOver) (fun j => cOver.alpha * cOver.sig_pred j) 1 +
        Scum (dt4 cOver) (fun j => cOver.beta * cOver.bg_pred j) 1 then
      Scum (dt4 cOver) (fun j => cOver.alpha * cOver.sig_pred j) 1 /
        Real.sqrt (Scum (dt4 cOver) (fun j => cOver.alpha * cOver.sig_pred j) 1 +
          Scum (dt4 cOver) (fun j => cOver.beta * cOver.bg_pred j) 1) else 0) = 11 / 10
    rw [hS1, hB1]
    rw [show (121 / 25 : ℝ) + 363 / 25 = 484 / 25 by norm_num]
    norm_num [h484]
  have e3 : nominalSnr4 cOver 3 = 21 / 10 := by
    show (if 0 < Scum (dt4 cOver) (fun j => cOver.alpha * cOver.sig_pred j) 2 +
        Scum (dt4 cOver) (fun j => cOver.beta * cOver.bg_pred j) 2 then
      Scum (dt4 cOver) (fun j => cOver.alpha * cOver.sig_pred j) 2 /
        Real.sqrt (Scum (dt4 cOver) (fun j => cOver.alpha * cOver.sig_pred j) 2 +
          Scum (dt4 cOver) (fun j => cOver.beta * cOver.bg_pred j) 2) else 0) = 21 / 10
    rw [hS2, hB2]
    rw [show (441 / 25 : ℝ) + 1323 / 25 = 1764 / 25 by norm_num]
    norm_num [h1764]
  have hgoal : cOver.snr_goal = 9 / 5 := rfl
  have hdtg : (updateSnr4 cOver).dt_goal = 63 / 11 := by
    show interp1d4 (nominalSnr4 cOver) (dt4 cOver) (dt4 cOver 3) cOver.snr_goal = 63 / 11
    rw [interp1d4, if_neg (by rw [e0, hgoal]; norm_num),
      if_neg (by rw [e3, hgoal]; norm_num)]
    rw [lagrange4, e0, e1, e2, e3, hgoal, hdt 0, hdt 1, hdt 2, hdt 3]
    norm_num
  refine ⟨e0, e1, e2, e3, ⟨by rw [e0, e1]; norm_num, by rw [e1, e2]; norm_num,
    by rw [e2, e3]; norm_num⟩, by rw [e3, hgoal]; norm_num, hdtg, ?_, ?_, ?_⟩
  · rw [hdtg, hdt 3]; norm_num
  · show dt4 (updateSnr4 cOver) 3 ≤ (updateSnr4 cOver).dt_goal
    rw [show dt4 (updateSnr4 cOver) 3 = dt4 cOver 3 from rfl, hdtg, hdt 3]
    norm_num
  · rw [hdtg, hdt 3]; norm_num

/-- C2 (amended): whenever the SNR goal lies strictly above the final value
of the nominal SNR curve, `_update_snr` sets `dt_goal` exactly to the last
grid elapsed time (the `fill_value` clamp) and `will_timeout()` is then
true.  (`will_timeout()` itself tests `dt_goal >= dt_pred[-1]`, not equality:
for in-range goals the cubic — not monotone — interpolant can exceed the
last grid time.) -/
theorem updateSnr4_clamps_goal_above_range (c : Calc4)
    (h : nominalSnr4 c 3 < c.snr_goal) :
    (updateSnr4 c).dt_goal = dt4 c 3 ∧ willTimeout4 (updateSnr4 c) := by
  have hfill : (updateSnr4 c).dt_goal = dt4 c 3 := by
    show interp1d4 (nominalSnr4 c) (dt4 c) (dt4 c 3) c.snr_goal = dt4 c 3
    rw [interp1d4]
    by_cases h1 : c.snr_goal < nominalSnr4 c 0
    · rw [if_pos h1]
    · rw [if_neg h1, if_pos h]
  refine ⟨hfill, ?_⟩
  show dt4 (updateSnr4 c) 3 ≤ (updateSnr4 c).dt_goal
  rw [show dt4 (updateSnr4 c) 3 = dt4 c 3 from rfl, hfill]

/-- Witness for the amended C2: a state with constant unit rates and an
unreachable goal of 100 is clamped to the final grid time and flagged as
timing out. -/
theorem updateSnr4_clamps_goal_above_range_witness :
    (updateSnr4 cClamp).dt_goal = dt4 cClamp 3 ∧ willTimeout4 (updateSnr4 cClamp) := by
  refine updateSnr4_clamps_goal_above_range cClamp ?_
  have hdt : ∀ j : ℕ, dt4 cClamp j = (j : ℝ) := by
    intro j; simp only [dt4, cClamp]; ring
  have hac : cClamp.alpha = 1 := rfl
  have hbc : cClamp.beta = 1 := rfl
  have hspc : ∀ j, cClamp.sig_pred j = 1 := fun _ => rfl
  have hbpc : ∀ j, cClamp.bg_pred j = 1 := fun _ => rfl
  have hS2 : Scum (dt4 cClamp) (fun j => cClamp.alpha * cClamp.sig_pred j) 2 = 3 := by
    norm_num [Scum, cumsum, trap, tstep, hdt, hac, hspc]
  have hB2 : Scum (dt4 cClamp) (fun j => cClamp.beta * cClamp.bg_pred j) 2 = 3 := by
    norm_num [Scum, cumsum, trap, tstep, hdt, hbc, hbpc]
  have e3 : nominalSnr4 cClamp 3 = 3 / Real.sqrt 6 := by
    show (if 0 < Scum (dt4 cClamp) (fun j => cClamp.alpha * cClamp.sig_pred j) 2 +
        Scum (dt4 cClamp) (fun j => cClamp.beta * cClamp.bg_pred j) 2 then
      Scum (dt4 cClamp) (fun j => cClamp.alpha * cClamp.sig_pred j) 2 /
        Real.sqrt (Scum (dt4 cClamp) (fun j => cClamp.alpha * cClamp.sig_pred j) 2 +
          Scum (dt4 cClamp) (fun j => cClamp.beta * cClamp.bg_pred j) 2) else 0) =
        3 / Real.sqrt 6
    rw [hS2, hB2]
    norm_num
  rw [e3, show cClamp.snr_goal = 100 from rfl]
  have h1 : (1 : ℝ) ≤ Real.sqrt 6 := by
    rw [show (1 : ℝ) = Real.sqrt 1 from Real.sqrt_one.symm]
    exact Real.sqrt_le_sqrt (by norm_num)
  have h2 : 3 / Real.sqrt 6 ≤ 3 := by
    rw [div_le_iff₀ (by linarith)]
    nlinarith
  linarith

theorem gpPred_nil (r0 dr0 tc x : ℝ) : gpPred [] r0 dr0 tc x = r0 := by
  simp [gpPred]

theorem gpStd_nil (dr0 tc x : ℝ) (h : 0 ≤ dr0) : gpStd [] dr0 tc x = dr0 := by
  have hk : rbfK dr0 tc x x = dr0 ^ 2 := by
    simp [rbfK]
  rw [gpStd, hk]
  simp only [List.length_nil, Finset.univ_eq_empty, Finset.sum_empty, sub_zero]
  rw [max_eq_right (sq_nonneg dr0), Real.sqrt_sq h]

/-- C5: a validly constructed `Calculator` (empty observation logs) has
prediction vectors equal to the flat priors at every grid point and
prediction-uncertainty vectors equal to the prior errors at every grid
point: the regression degenerates to prior-only with no data. -/
theorem calc_init_prior_only (alpha dalpha beta dbeta sig0 dsig0 tcorr_sig bg0 dbg0
    tcorr_bg t0 snr_goal dtmax : ℝ) (npred : ℕ) (gen : Rng) (c : Calc)
    (h : Calc.init alpha dalpha beta dbeta sig0 dsig0 tcorr_sig bg0 dbg0 tcorr_bg
      t0 snr_goal dtmax npred gen = some c) (j : ℕ) :
    c.sig_pred j = sig0 ∧ c.dsig_pred j = dsig0 ∧ c.bg_pred j = bg0 ∧ c.dbg_pred j = dbg0 := by
  rw [Calc.init] at h
  by_cases hok : Calc.initOk alpha dalpha beta dbeta sig0 dsig0 tcorr_sig bg0 dbg0
    tcorr_bg snr_goal
  · rw [if_pos hok] at h
    obtain ⟨_, _, _, _, _, _, hds0, _, hdb0, _, _⟩ := hok
    have hc : c = Calc.mk0 alpha dalpha beta dbeta sig0 dsig0 tcorr_sig bg0 dbg0 tcorr_bg
        t0 snr_goal dtmax npred gen := (Option.some.inj h).symm
    subst hc
    exact ⟨gpPred_nil _ _ _ _, gpStd_nil _ _ _ hds0.le, gpPred_nil _ _ _ _,
      gpStd_nil _ _ _ hdb0.le⟩
  · rw [if_neg hok] at h
    exact absurd h (by simp)

/-- Witness for C5 with unit priors: the freshly constructed state predicts
the priors with the prior errors at the first grid point. -/
theorem calc_init_prior_only_witness :
    (Calc.mk0 1 0 1 0 1 1 1 1 1 1 0 1 3 4 rngW).sig_pred 0 = 1 ∧
    (Calc.mk0 1 0 1 0 1 1 1 1 1 1 0 1 3 4 rngW).dsig_pred 0 = 1 ∧
    (Calc.mk0 1 0 1 0 1 1 1 1 1 1 0 1 3 4 rngW).bg_pred 0 = 1 ∧
    (Calc.mk0 1 0 1 0 1 1 1 1 1 1 0 1 3 4 rngW).dbg_pred 0 = 1 := by
  refine calc_init_prior_only 1 0 1 0 1 1 1 1 1 1 0 1 3 4 rngW _ ?_ 0
  rw [Calc.init, if_pos]
  exact ⟨by norm_num, by norm_num, by norm_num, by norm_num, by norm_num, by norm_num,
    by norm_num, by norm_num, by norm_num, by norm_num, by norm_num⟩

/-- C4: invalid update arguments (timestamp before `t0`, or non-positive
rate or error) make both update calls fail fast with the whole state
untouched, while valid arguments append exactly one triple to the
corresponding observation log and leave the other log unchanged. -/
theorem update_validates_and_appends (c : Calc) (t r e : ℝ) :
    ((t < c.t0 ∨ r ≤ 0 ∨ e ≤ 0) →
      c.updateSignalState t r e = c ∧ c.updateSignalRaises t r e ∧
      c.updateBackgroundState t r e = c ∧ c.updateBackgroundRaises t r e) ∧
    (c.t0 ≤ t → 0 < r → 0 < e →
      (c.updateSignalState t r e).sigObs = c.sigObs ++ [(t - c.t0, r, e)] ∧
      (c.updateSignalState t r e).bgObs = c.bgObs ∧
      (c.updateBackgroundState t r e).bgObs = c.bgObs ++ [(t - c.t0, r, e)] ∧
      (c.updateBackgroundState t r e).sigObs = c.sigObs) := by
  constructor
  · intro hbad
    have hcond : ¬(c.t0 ≤ t ∧ 0 < r ∧ 0 < e) := by
      rintro ⟨h1, h2, h3⟩
      rcases hbad with h | h | h <;> linarith
    refine ⟨?_, Or.inl hcond, ?_, Or.inl hcond⟩
    · rw [Calc.updateSignalState, if_neg hcond]
    · rw [Calc.updateBackgroundState, if_neg hcond]
  · intro h1 h2 h3
    have hcond : c.t0 ≤ t ∧ 0 < r ∧ 0 < e := ⟨h1, h2, h3⟩
    refine ⟨?_, ?_, ?_, ?_⟩ <;>
      simp [Calc.updateSignalState, Calc.updateBackgroundState, hcond]

/-- Witness for C4: on a concrete state, a too-early timestamp leaves the
state untouched and raises, while a valid call appends its triple. -/
theorem update_validates_and_appends_witness :
    ccW.updateSignalState (-1) 1 1 = ccW ∧ ccW.updateSignalRaises (-1) 1 1 ∧
    (ccW.updateSignalState 1 2 3).sigObs = ccW.sigObs ++ [(1 - ccW.t0, 2, 3)] := by
  have ht0 : ccW.t0 = 0 := rfl
  obtain ⟨ha, hb, _, _⟩ := (update_validates_and_appends ccW (-1) 1 1).1
    (Or.inl (by rw [ht0]; norm_num))
  exact ⟨ha, hb, ((update_validates_and_appends ccW 1 2 3).2 (by rw [ht0]; norm_num)
    (by norm_num) (by norm_num)).1⟩

theorem getSamples_snd (sy : SampleYT) (c : Calc) (dt : ℕ → ℝ) (m k : ℕ) :
    (c.getSamples sy dt m k).2 = { c with gen := (c.getSamples sy dt m k).2.gen } ∧
    (c.getSamples sy dt m k).2.gen.vals = c.gen.vals := by
  rw [Calc.getSamples]
  by_cases h : (∀ j, j < m → 0 ≤ dt j ∧ dt j ≤ c.dtPred (c.npred - 1)) ∧ 0 < k
  · rw [if_pos h]
    refine ⟨rfl, ?_⟩
    by_cases h1 : 0 < c.dalpha <;> by_cases h2 : 0 < c.dbeta <;>
      simp [h1, h2, Rng.normal]
  · rw [if_neg h]
    exact ⟨rfl, rfl⟩

theorem getSnrNow_snd (sy : SampleYT) (c : Calc) (tnow CL : ℝ) (ns : ℕ) :
    (c.getSnrNow sy tnow CL ns).2 = { c with gen := (c.getSnrNow sy tnow CL ns).2.gen } ∧
    (c.getSnrNow sy tnow CL ns).2.gen.vals = c.gen.vals := by
  rw [Calc.getSnrNow]
  by_cases h : c.t0 ≤ tnow ∧ tnow ≤ c.t0 + c.dtPred (c.npred - 1) ∧ 0 < CL ∧ CL < 1 ∧ 0 < ns
  · rw [if_pos h]
    exact ⟨(getSamples_snd sy c _ _ ns).1, (getSamples_snd sy c _ _ ns).2⟩
  · rw [if_neg h]
    exact ⟨rfl, rfl⟩

/-- C8: `get_snr_now` and `get_samples` are read-only over the model state:
the state after either call equals the state before with only the random
generator replaced, and even the generator's variate stream is unchanged
(only its position advances). -/
theorem get_snr_now_and_samples_read_only (sy : SampleYT) (c : Calc) (tnow CL : ℝ)
    (ns : ℕ) (dt : ℕ → ℝ) (m k : ℕ) :
    (c.getSnrNow sy tnow CL ns).2 = { c with gen := (c.getSnrNow sy tnow CL ns).2.gen } ∧
    (c.getSnrNow sy tnow CL ns).2.gen.vals = c.gen.vals ∧
    (c.getSamples sy dt m k).2 = { c with gen := (c.getSamples sy dt m k).2.gen } ∧
    (c.getSamples sy dt m k).2.gen.vals = c.gen.vals :=
  ⟨(getSnrNow_snd sy c tnow CL ns).1, (getSnrNow_snd sy c tnow CL ns).2,
    (getSamples_snd sy c dt m k).1, (getSamples_snd sy c dt m k).2⟩

/-- C9: restoring the seeded generator after a `get_snr_now` call and calling
again with identical arguments returns the identical `(lo, hi)` pair: the
result is a deterministic function of the generator stream, the construction
state, the observation log and the arguments. -/
theorem get_snr_now_reproducible (sy : SampleYT) (c : Calc) (tnow CL : ℝ) (ns : ℕ) :
    (Calc.getSnrNow sy { (c.getSnrNow sy tnow CL ns).2 with gen := c.gen } tnow CL ns).1 =
      (c.getSnrNow sy tnow CL ns).1 := by
  rw [(getSnrNow_snd sy c tnow CL ns).1]
